import Mathlib

/-!
# InstaFix: the post resolver of `handlers/data/data.go`

A shallow embedding of `handlers/data/data.go` and the proofs of its specification.

* Go strings and byte slices are Lean `String`s.
* `html.Node` is a finite tree; `FirstChild` / `NextSibling` chains are child lists.
* Code that lives outside `data.go` (gjson, goquery's HTML parser, the JS lexer, the
  generated `Line.Extract`, `utils.UnescapeJSONString`, `escape.JSON`, `binary`) is a
  parameter of the embedding, collected in `Lib`.
* What the outside world answers (HTTP attempts, the clock, store failures) is an explicit
  input, collected in `World`.
* The pebble store is a finite map from keys to values, kept as an association list with
  one entry per key.
-/

namespace InstaFix

/-! ## Go values -/

/-- Go `error` values that `data.go` can hand to its caller. `nil` is `none : Option GoError`. -/
inductive GoError where
  /-- Go `ErrNotFound = errors.New("post not found")` -/
  | ErrNotFound
  /-- Go `errors.New("shortcode_media not found")` (line 78) -/
  | shortcodeMediaNotFound
  /-- Go `pebble.ErrNotFound` -/
  | pebbleErrNotFound
  /-- an error returned by `client.DoTimeout` -/
  | transport (code : Nat)
  /-- an error returned by `goquery.NewDocumentFromReader` -/
  | html (code : Nat)
  /-- an error returned by the pebble store -/
  | pebble (code : Nat)
  /-- an error returned by `binary.Marshal` / `binary.Unmarshal` -/
  | binary (code : Nat)
  deriving DecidableEq, Repr

/-- The struct `Media` (line 37). -/
structure Media where
  TypeName : String
  URL : String
  deriving DecidableEq, Repr

/-- The struct `InstaData` (line 42). -/
structure InstaData where
  PostID : String
  Username : String
  Caption : String
  Medias : List Media
  deriving DecidableEq, Repr

/-! ## Go standard library functions used by `data.go` -/

/-- The pieces of `s` between occurrences of the one-byte separator `sep`, on characters. -/
def Split.go (sep : Char) : List Char → List (List Char)
  | [] => [[]]
  | c :: cs =>
    if c = sep then [] :: Split.go sep cs
    else
      match Split.go sep cs with
      | [] => [[c]]
      | l :: ls => (c :: l) :: ls

/-- Go `strings.Split(s, sep)` / `bytes.Split(s, sep)` for a one-byte separator. -/
def Split (s : String) (sep : Char) : List String :=
  (Split.go sep s.data).map String.mk

/-- Whether `sub` occurs in the character list. -/
def Contains.go : List Char → List Char → Bool
  | [], sub => sub.isEmpty
  | c :: cs, sub => sub.isPrefixOf (c :: cs) || Contains.go cs sub

/-- Go `bytes.Contains(b, sub)`. -/
def Contains (b sub : String) : Bool :=
  Contains.go b.data sub.data

/-- Go `bytes.HasPrefix(s, p)`. -/
def startsWith (s p : String) : Bool :=
  p.data.isPrefixOf s.data

/-- The digit characters `"0123456789"[d]`. -/
def digitChar : Nat → Char
  | 0 => '0' | 1 => '1' | 2 => '2' | 3 => '3' | 4 => '4'
  | 5 => '5' | 6 => '6' | 7 => '7' | 8 => '8' | _ => '9'

/-- The decimal digits of `u`, most significant first, put in front of `acc`
(`strconv.formatBits` in base 10). The first argument bounds the number of digits. -/
def formatBits : Nat → Nat → List Nat → List Nat
  | 0, _, acc => acc
  | fuel + 1, u, acc =>
    if u < 10 then u :: acc else formatBits fuel (u / 10) (u % 10 :: acc)

/-- The decimal digits of `u`, most significant first. -/
def decDigits (u : Nat) : List Nat :=
  formatBits (u + 1) u []

/-- Go `strconv.FormatInt(i, 10)`. -/
def FormatInt (i : Int) : String :=
  if i < 0 then String.mk ('-' :: (decDigits (-i).toNat).map digitChar)
  else String.mk ((decDigits i.toNat).map digitChar)

/-- Go `strconv.FormatBool(b)`. -/
def FormatBool (b : Bool) : String :=
  if b then "true" else "false"

/-- Go `bytes.Compare(a, b) < 0`: byte-wise lexicographic order, a proper initial segment first.
This is the key order of the pebble store. -/
def bytesLess : List Char → List Char → Bool
  | [], [] => false
  | [], _ :: _ => true
  | _ :: _, [] => false
  | a :: as, b :: bs =>
    if a.toNat < b.toNat then true
    else if b.toNat < a.toNat then false
    else bytesLess as bs

/-- Go `rand.Intn(n)`: a value of `[0, n)`, drawn by the random source `rnd`. -/
def Intn (rnd : Nat) (n : Nat) : Nat :=
  rnd % n

/-! ## HTML trees and the goquery operations used by `parseEmbedHTML` -/

/-- Go `html.NodeType`. -/
inductive NodeType where
  | ErrorNode | TextNode | DocumentNode | ElementNode | CommentNode | DoctypeNode
  deriving DecidableEq, Repr

/-- Go `html.Node`: `Type`, `Data`, `Attr` and the children from `FirstChild` along
`NextSibling`. -/
inductive Node where
  | mk (type : NodeType) (data : String) (attr : List (String × String))
      (children : List Node)

/-- Go `n.Type`. -/
def Node.Type : Node → NodeType
  | .mk t _ _ _ => t

/-- Go `n.Data`. -/
def Node.Data : Node → String
  | .mk _ d _ _ => d

/-- Go `n.Attr`. -/
def Node.Attr : Node → List (String × String)
  | .mk _ _ a _ => a

/-- The children of `n`, first to last. -/
def Node.children : Node → List Node
  | .mk _ _ _ cs => cs

mutual
/-- The closure `f` of `gqTextNewLine` (lines 245-257), writing to the builder `sb`. -/
def gqTextNewLine.f : Node → String → String
  | .mk t d _ cs, sb =>
    let sb :=
      if t = NodeType.TextNode then sb ++ d
      else if t = NodeType.ElementNode ∧ d = "br" then sb ++ "\n"
      else sb
    gqTextNewLine.loop cs sb
/-- The loop `for c := n.FirstChild; c != nil; c = c.NextSibling { f(c) }`. -/
def gqTextNewLine.loop : List Node → String → String
  | [], sb => sb
  | c :: cs, sb => gqTextNewLine.loop cs (gqTextNewLine.f c sb)
end

/-- The function `gqTextNewLine(s)` (line 241), on the nodes `s.Nodes` of the selection. -/
def gqTextNewLine (s : List Node) : String :=
  s.foldl (fun sb n => gqTextNewLine.f n sb) ""

mutual
/-- The closure of goquery's `Selection.Text`: the text nodes below `n`, in order. -/
def Text.f : Node → String → String
  | .mk t d _ cs, buf =>
    let buf := if t = NodeType.TextNode then buf ++ d else buf
    Text.loop cs buf
/-- The loop over the children in `Selection.Text`. -/
def Text.loop : List Node → String → String
  | [], buf => buf
  | c :: cs, buf => Text.loop cs (Text.f c buf)
end

/-- Go `s.Text()` of goquery. -/
def Text (s : List Node) : String :=
  s.foldl (fun buf n => Text.f n buf) ""

mutual
/-- The nodes of the subtree of `n` in document order, `n` first. -/
def preorder : Node → List Node
  | .mk t d a cs => Node.mk t d a cs :: preorderList cs
/-- The nodes of a forest in document order. -/
def preorderList : List Node → List Node
  | [] => []
  | c :: cs => preorder c ++ preorderList cs
end

/-- The value of the first attribute named `key`, if any. -/
def attrLookup (key : String) : List (String × String) → Option String
  | [] => none
  | (k, v) :: rest => if k = key then some v else attrLookup key rest

/-- The pieces of a character list between the characters that satisfy `isSep`. -/
def splitWhere (isSep : Char → Bool) : List Char → List (List Char)
  | [] => [[]]
  | c :: cs =>
    if isSep c then [] :: splitWhere isSep cs
    else
      match splitWhere isSep cs with
      | [] => [[c]]
      | l :: ls => (c :: l) :: ls

/-- Whether `n` is an element whose `class` attribute lists `cls` among its
space-separated names (the selector `.cls`). -/
def hasClass (cls : String) (n : Node) : Bool :=
  n.Type = NodeType.ElementNode &&
    n.Attr.any (fun a => a.1 = "class" &&
      (splitWhere (fun c => c = ' ' || c = '\t' || c = '\n' || c = '\x0c' || c = '\r')
        a.2.data).contains cls.data)

/-- Go `doc.Find("." + cls)`: the elements below the document root that have class `cls`, in
document order. -/
def Find (doc : Node) (cls : String) : List Node :=
  (doc.children.filter (fun c => c.Type = NodeType.ElementNode)).flatMap
    (fun c => (preorder c).filter (hasClass cls))

/-- Go `s.Attr(name)`: the attribute of the first node of the selection. -/
def Attr (s : List Node) (name : String) : String × Bool :=
  match s with
  | [] => ("", false)
  | n :: _ =>
    match attrLookup name n.Attr with
    | some v => (v, true)
    | none => ("", false)

mutual
/-- The subtree of `n` without the elements of class `cls`, or nothing when `n` is one. -/
def prune (cls : String) : Node → List Node
  | .mk t d a cs =>
    if hasClass cls (Node.mk t d a []) then [] else [Node.mk t d a (pruneList cls cs)]
/-- The forest without the elements of class `cls`. -/
def pruneList (cls : String) : List Node → List Node
  | [] => []
  | c :: cs => prune cls c ++ pruneList cls cs
end

/-- The document after `doc.Find("." + cls).Remove()`. -/
def Remove (doc : Node) (cls : String) : Node :=
  match doc with
  | .mk t d a cs =>
    Node.mk t d a
      (cs.flatMap (fun c => if c.Type = NodeType.ElementNode then prune cls c else [c]))

/-! ## Code outside `data.go` -/

/-- Go `js.TokenType`, as far as `getData` tells the values apart. -/
inductive TokenType where
  | StringToken
  | OtherToken (code : Nat)
  deriving DecidableEq, Repr

/-- The struct `Line` of the generated marker-line scanner. -/
structure Line where
  Rest : String
  TimeSliceImplValue : String
  deriving DecidableEq, Repr

/-- The functions `data.go` calls in other packages. `R` is `gjson.Result`. -/
structure Lib (R : Type) where
  /-- Go `gjson.Result{}` -/
  gjsonNil : R
  /-- Go `gjson.Parse` -/
  gjsonParse : String → R
  /-- Go `gjson.Valid` -/
  gjsonValid : String → Bool
  /-- Go `Result.Get(path)` -/
  gjsonGet : R → String → R
  /-- Go `Result.Exists()` -/
  gjsonExists : R → Bool
  /-- Go `Result.String()` -/
  gjsonString : R → String
  /-- Go `Result.Bool()` -/
  gjsonBool : R → Bool
  /-- Go `Result.Array()` -/
  gjsonArray : R → List R
  /-- Go `utils.UnescapeJSONString` -/
  UnescapeJSONString : String → String
  /-- Go `escape.JSON` -/
  escapeJSON : String → String
  /-- Go `goquery.NewDocumentFromReader`: the root of the parsed document, or an error -/
  NewDocumentFromReader : String → Except GoError Node
  /-- Go `l.Extract(line)`: the scanner after the call and whether the line matched -/
  Extract : Line → String → Line × Bool
  /-- the tokens `lexer.Next()` returns for an input, up to the first `js.ErrorToken` -/
  jsTokens : String → List (TokenType × String)
  /-- Go `bytes.TrimSpace` -/
  TrimSpace : String → String
  /-- Go `binary.Marshal` -/
  Marshal : InstaData → Except GoError String
  /-- Go `binary.Unmarshal(data, i)`: the receiver after the call, which decodes into it in
  place, and the error -/
  Unmarshal : String → InstaData → InstaData × Option GoError

/-- What one `client.DoTimeout(req, res, timeout)` call leaves behind: its error and the
bytes `res.Body()` holds afterwards. -/
structure Attempt where
  err : Option GoError
  body : String
  deriving DecidableEq, Repr

/-- The answers of the outside world during one `GetData` call. -/
structure World where
  /-- the outcome of the embed request for a post id, by attempt number (from 0) -/
  embed : String → Nat → Attempt
  /-- the outcome of the query request for a post id -/
  gql : String → Attempt
  /-- Go `time.Now().UnixNano()` at the cache write -/
  now : Int
  /-- an error of `DB.Get` other than a missing key, if the store fails -/
  dbGetErr : Option GoError
  /-- the error of the n-th `batch.Set`, if it fails -/
  batchSetErr : Nat → Option GoError
  /-- the error of `batch.Commit`, if it fails -/
  commitErr : Option GoError

/-- The requests that a call makes and the parser it runs, in order. -/
inductive Event where
  /-- one `client.DoTimeout` of the embed request (line 165) -/
  | embedFetch
  /-- the call of `parseEmbedHTML` (line 204) -/
  | parseHTML
  /-- the call of `parseGQLData` (line 218) -/
  | gqlQuery
  deriving DecidableEq, Repr

/-! ## The store -/

/-- The pebble store: its entries, one per key. -/
abbrev Store := List (String × String)

/-- The value stored under `k`. -/
def Store.get (db : Store) (k : String) : Option String :=
  match db with
  | [] => none
  | (k1, v) :: rest => if k1 = k then some v else Store.get rest k

/-- The store after `Set(k, v)`: the entry of `k` is replaced. -/
def Store.set (db : Store) (k v : String) : Store :=
  (k, v) :: db.filter (fun e => e.1 ≠ k)

/-- Go `DB.Get(key)`: the value and the error. -/
def DBGet (w : World) (db : Store) (key : String) : String × Option GoError :=
  match w.dbGetErr with
  | some e => ("", some e)
  | none =>
    match db.get key with
    | some v => (v, none)
    | none => ("", some GoError.pebbleErrNotFound)

/-- Go `24 * time.Hour`, in nanoseconds. -/
def ttl : Int := 24 * 3600 * 1000000000

/-- The key of the expiration entry written at time `now` (lines 124-125):
`append([]byte("exp-"), strconv.FormatInt(now.Add(24*time.Hour).UnixNano(), 10)...)`.
Times are integers without a bound; `UnixNano` is defined where the time fits 64 bits
(the years 1678 to 2262), and there it is this sum. -/
def expKey (now : Int) : String :=
  "exp-" ++ FormatInt (now + ttl)

/-- The key `"exp-" + strconv.FormatInt(t, 10)` of an expiry timestamp `t`. -/
def pointerKey (t : Int) : String :=
  "exp-" ++ FormatInt t

/-- The committed batch of lines 116-131: the record under the id, then the expiration
entry. -/
def cacheWrite (db : Store) (postID bb : String) (now : Int) : Store :=
  (db.set postID bb).set (expKey now) postID

/-! ## `parseEmbedHTML` -/

/-- The JSON text that `parseEmbedHTML` returns (lines 297-305). -/
def embedJSON (username typename mediaURL captionJSON videoBlocked : String) : String :=
  "\x7b\n\t\t\"shortcode_media\": \x7b\n\t\t\t\"owner\": \x7b\"username\": \"" ++ username ++
  "\"\x7d,\n\t\t\t\"node\": \x7b\"__typename\": \"" ++ typename ++
  "\", \"display_url\": \"" ++ mediaURL ++
  "\"\x7d,\n\t\t\t\"edge_media_to_caption\": \x7b\"edges\": [\x7b\"node\": \x7b\"text\": " ++
  captionJSON ++
  "\x7d\x7d]\x7d,\n\t\t\t\"dimensions\": \x7b\"height\": null, \"width\": null\x7d,\n\t\t\t\"video_blocked\": " ++
  videoBlocked ++ "\n\t\t\x7d\n\t\x7d"

/-- The media kind and URL that `parseEmbedHTML` picks (lines 270-277). -/
def embedMedia (doc : Node) : String × String :=
  let typename := "GraphImage"
  let embedMedia := Find doc "EmbeddedMediaImage"
  let (typename, embedMedia) :=
    if embedMedia.length = 0 then ("GraphVideo", Find doc "EmbeddedMediaVideo")
    else (typename, embedMedia)
  (typename, (Attr embedMedia "src").1)

/-- The caption that `parseEmbedHTML` extracts (lines 282-291). -/
def embedCaption (doc : Node) : String :=
  let doc := if (Find doc "CaptionComments").length > 0 then Remove doc "CaptionComments" else doc
  let doc := if (Find doc "CaptionUsername").length > 0 then Remove doc "CaptionUsername" else doc
  gqTextNewLine (Find doc "Caption")

/-- The function `parseEmbedHTML(embedHTML)` (line 264). -/
def parseEmbedHTML {R : Type} (lib : Lib R) (embedHTML : String) : Except GoError String :=
  match lib.NewDocumentFromReader embedHTML with
  | .error err => .error err
  | .ok doc =>
    let (typename, mediaURL) := embedMedia doc
    let username := Text (Find doc "UsernameText")
    let caption := embedCaption doc
    let videoBlocked := FormatBool (Contains embedHTML "WatchOnInstagram")
    .ok (embedJSON username typename mediaURL (lib.escapeJSON caption) videoBlocked)

/-! ## `getData` -/

/-- The result and error of `getData`, with the requests it made. -/
structure Fetched (R : Type) where
  data : R
  err : Option GoError
  trace : List Event

/-- The retry loop of lines 164-169 from attempt number `retries` with `budget` attempts
left: the number of `DoTimeout` calls made in all and `res.Body()` after the loop. The
`err` of line 165 is declared by `:=` inside the loop body, so nothing of it is left
after the loop. -/
def retryLoop (w : World) (postID : String) : Nat → Nat → String → Nat × String
  | 0, retries, body => (retries, body)
  | budget + 1, retries, _ =>
    let a := w.embed postID retries
    if a.err = none ∧ a.body.length > 0 then (retries + 1, a.body)
    else retryLoop w postID budget (retries + 1) a.body

/-- The scan of lines 172-179: the scanner `l` and `ldeMatch` after the loop over the
lines of the body. -/
def ldeScan {R : Type} (lib : Lib R) (body : String) : Line × Bool :=
  (Split body '\n').foldl (fun st line => lib.Extract st.1 line) (⟨"", ""⟩, false)

/-- The token loop of lines 183-200 over the tokens before the first `js.ErrorToken`:
what `getData` returns from inside the loop, or `none` when the loop ends by `break`.
`err` is the variable declared at line 163. -/
def tokenLoop {R : Type} (lib : Lib R) (err : Option GoError) :
    List (TokenType × String) → Option (R × Option GoError)
  | [] => none
  | (tt, text) :: rest =>
    if tt = TokenType.StringToken ∧ Contains text "shortcode_media" = true then
      let text := String.mk (text.data.drop 1).dropLast
      let unescapeData := lib.UnescapeJSONString text
      if lib.gjsonValid unescapeData = false then some (lib.gjsonNil, err)
      else some (lib.gjsonGet (lib.gjsonParse unescapeData) "gql_data", none)
    else tokenLoop lib err rest

/-- The embedded-script stage of `getData` (lines 171-201) on the fetched body: what
`getData` returns from it, or `none` when control reaches line 203. -/
def scriptStage {R : Type} (lib : Lib R) (err : Option GoError) (body : String) :
    Option (R × Option GoError) :=
  let (l, ldeMatch) := ldeScan lib body
  if ldeMatch then tokenLoop lib err (lib.jsTokens l.TimeSliceImplValue) else none

/-- The function `parseGQLData(postID, req, res)` (line 308). -/
def parseGQLData (w : World) (postID : String) : Except GoError String :=
  match (w.gql postID).err with
  | some err => .error err
  | none => .ok (w.gql postID).body

/-- Lines 203-236 of `getData` on the fetched body; `trace` holds the requests made so
far. -/
def embedStage {R : Type} (lib : Lib R) (w : World) (postID body : String)
    (trace : List Event) : Fetched R :=
  match parseEmbedHTML lib body with
  | .error err => ⟨lib.gjsonNil, some err, trace ++ [Event.parseHTML]⟩
  | .ok embedHTML =>
    let trace := trace ++ [Event.parseHTML]
    let embedHTMLData := lib.gjsonParse embedHTML
    let smedia := lib.gjsonGet embedHTMLData "shortcode_media"
    let videoBlocked := lib.gjsonBool (lib.gjsonGet smedia "video_blocked")
    let username := lib.gjsonString (lib.gjsonGet smedia "owner.username")
    let notFound (trace : List Event) : Fetched R :=
      if username.length = 0 then ⟨lib.gjsonNil, some GoError.ErrNotFound, trace⟩
      else ⟨embedHTMLData, none, trace⟩
    if videoBlocked = true ∨ username.length = 0 then
      let trace := trace ++ [Event.gqlQuery]
      match parseGQLData w postID with
      | .error err => ⟨lib.gjsonNil, some err, trace⟩
      | .ok gqlValue =>
        let gqlData := lib.gjsonParse gqlValue
        if lib.gjsonExists (lib.gjsonGet gqlData "data") = true then
          ⟨lib.gjsonGet gqlData "data", none, trace⟩
        else notFound trace
    else notFound trace

/-- The function `getData(postID)` (line 138). The proxy drawn at line 144 only picks the dialer; the
outcome of each request is given by `w`. -/
def getData {R : Type} (lib : Lib R) (w : World) (postID : String) : Fetched R :=
  let err : Option GoError := none
  let (attempts, body) := retryLoop w postID 3 0 ""
  let trace := List.replicate attempts Event.embedFetch
  match scriptStage lib err body with
  | some (data, e) => ⟨data, e, trace⟩
  | none => embedStage lib w postID body trace

/-! ## `InstaData.GetData` -/

/-- The outcome of `i.GetData(postID)`: the receiver, the store, the error and the
requests made. -/
structure Resolved where
  i : InstaData
  db : Store
  err : Option GoError
  trace : List Event

/-- The `Media` appended for one element of `media` (lines 97-107). -/
def mediaOf {R : Type} (lib : Lib R) (m : R) : Media :=
  let m := if lib.gjsonExists (lib.gjsonGet m "node") = true then lib.gjsonGet m "node" else m
  let mediaURL := lib.gjsonGet m "video_url"
  let mediaURL := if lib.gjsonExists mediaURL = false then lib.gjsonGet m "display_url" else mediaURL
  { TypeName := lib.gjsonString (lib.gjsonGet m "__typename"), URL := lib.gjsonString mediaURL }

/-- The record that lines 76-108 build from the result of `getData`, when
`shortcode_media` exists. -/
def buildRecord {R : Type} (lib : Lib R) (postID : String) (item : R) : InstaData :=
  let media :=
    if lib.gjsonExists (lib.gjsonGet item "edge_sidecar_to_children") = true then
      lib.gjsonArray (lib.gjsonGet item "edge_sidecar_to_children.edges")
    else [item]
  { PostID := postID
    Username := lib.gjsonString (lib.gjsonGet item "owner.username")
    Caption := lib.TrimSpace
      (lib.gjsonString (lib.gjsonGet item "edge_media_to_caption.edges.0.node.text"))
    Medias := media.map (mediaOf lib) }

/-- The method `i.GetData(postID)` (line 49) on the store `db`. -/
def GetData {R : Type} (lib : Lib R) (w : World) (db : Store) (i : InstaData)
    (postID : String) : Resolved :=
  let (cacheInstaData, err) := DBGet w db postID
  if err ≠ none ∧ err ≠ some GoError.pebbleErrNotFound then ⟨i, db, err, []⟩
  else if cacheInstaData.length > 0 then
    let (i, err) := lib.Unmarshal cacheInstaData i
    match err with
    | some err => ⟨i, db, some err, []⟩
    | none => ⟨i, db, none, []⟩
  else
    let fetched := getData lib w postID
    match fetched.err with
    | some err => ⟨i, db, some err, fetched.trace⟩
    | none =>
      let item := lib.gjsonGet fetched.data "shortcode_media"
      if lib.gjsonExists item = false then
        ⟨i, db, some GoError.shortcodeMediaNotFound, fetched.trace⟩
      else
        let i := buildRecord lib postID item
        match lib.Marshal i with
        | .error err => ⟨i, db, some err, fetched.trace⟩
        | .ok bb =>
          match w.batchSetErr 0 with
          | some err => ⟨i, db, some err, fetched.trace⟩
          | none =>
            match w.batchSetErr 1 with
            | some err => ⟨i, db, some err, fetched.trace⟩
            | none =>
              match w.commitErr with
              | some err => ⟨i, db, some err, fetched.trace⟩
              | none => ⟨i, cacheWrite db postID bb w.now, none, fetched.trace⟩

/-! ## `getRandomProxy` -/

/-- The function `getRandomProxy()` (line 340) for the value of the variable `ProxyFilePath`, the
outcome `ReadFile` of `os.ReadFile` and the random source `rnd`. -/
def getRandomProxy (ProxyFilePath : String) (ReadFile : String → Except GoError String)
    (rnd : Nat) : String :=
  if ProxyFilePath = "" then ""
  else
    match ReadFile ProxyFilePath with
    | .error _ => ""
    | .ok proxies =>
      let proxyList := Split proxies '\n'
      if proxyList.length = 0 then ""
      else
        let randIndex := Intn rnd proxyList.length
        proxyList.getD randIndex ""

/-! ## A table-driven instance of `Lib`

To run the embedding on concrete inputs, the functions of `Lib` are given by finite tables:
each entry states what the function returns on one input. `gjson.Result` is a JSON tree,
absent when the path does not exist. -/

/-- JSON values. -/
inductive JSON where
  | null
  | bool (b : Bool)
  | num (n : Int)
  | str (s : String)
  | arr (items : List JSON)
  | obj (members : List (String × JSON))

/-- The first element of a table under `key`. -/
def tableLookup {α : Type} (key : String) : List (String × α) → Option α
  | [] => none
  | (k, v) :: rest => if k = key then some v else tableLookup key rest

/-- The decimal index that a path component denotes, if it is one. -/
def indexOf (k : String) : Option Nat :=
  if k.data.all Char.isDigit ∧ k ≠ "" then
    some (k.data.foldl (fun n c => 10 * n + (c.toNat - 48)) 0)
  else none

/-- One step of a gjson path: the member of an object, or the element of an array. -/
def JSON.step (j : JSON) (k : String) : Option JSON :=
  match j with
  | .obj members => tableLookup k members
  | .arr items =>
    match indexOf k with
    | some n => items.get? n
    | none => none
  | _ => none

/-- Go `Result.Get(path)` for a path of member names and indices separated by dots. -/
def JSON.get (r : Option JSON) (path : String) : Option JSON :=
  (Split path '.').foldl (fun r k => r.bind (fun j => j.step k)) r

mutual
/-- The text of a JSON value, without spaces. -/
def JSON.render : JSON → String
  | .null => "null"
  | .bool b => FormatBool b
  | .num n => FormatInt n
  | .str s => "\"" ++ s ++ "\""
  | .arr items => "[" ++ JSON.renderItems items ++ "]"
  | .obj members => "\x7b" ++ JSON.renderMembers members ++ "\x7d"
/-- The elements of an array, separated by commas. -/
def JSON.renderItems : List JSON → String
  | [] => ""
  | [j] => JSON.render j
  | j :: rest => JSON.render j ++ "," ++ JSON.renderItems rest
/-- The members of an object, separated by commas. -/
def JSON.renderMembers : List (String × JSON) → String
  | [] => ""
  | [(k, j)] => "\"" ++ k ++ "\":" ++ JSON.render j
  | (k, j) :: rest => "\"" ++ k ++ "\":" ++ JSON.render j ++ "," ++ JSON.renderMembers rest
end

/-- Go `Result.String()`. -/
def JSON.string : Option JSON → String
  | none => ""
  | some .null => ""
  | some (.str s) => s
  | some j => j.render

/-- Go `Result.Bool()`. -/
def JSON.toBool : Option JSON → Bool
  | some (.bool b) => b
  | some (.str s) => s = "1" || s = "t" || s = "T" || s = "true" || s = "TRUE" || s = "True"
  | some (.num n) => n != 0
  | _ => false

/-- Go `Result.Array()`. -/
def JSON.array : Option JSON → List (Option JSON)
  | none => []
  | some .null => []
  | some (.arr items) => items.map some
  | some j => [some j]

/-- Modelled from the spec: `utils.UnescapeJSONString`, which is not part of `data.go`;
escaped quotes and backslashes become their literal bytes. -/
def sampleUnescape : List Char → List Char
  | [] => []
  | [c] => [c]
  | c :: d :: rest =>
    if c = '\\' ∧ (d = '"' ∨ d = '\\') then d :: sampleUnescape rest
    else c :: sampleUnescape (d :: rest)

/-- Modelled from the spec: the generated scanner `Line.Extract`, which is not part of
`data.go`; a line matches the fixed marker when it begins with `marker`, and the payload
is the rest of the line. A line that does not match leaves the payload as it was. -/
def sampleExtract (marker : String) (l : Line) (line : String) : Line × Bool :=
  if startsWith line marker = true then
    (⟨"", String.mk (line.data.drop marker.length)⟩, true)
  else (⟨line, l.TimeSliceImplValue⟩, false)

/-- The white space that `bytes.TrimSpace` removes, among the ASCII characters. -/
def isSpace (c : Char) : Bool :=
  c = ' ' || c = '\t' || c = '\n' || c = '\x0b' || c = '\x0c' || c = '\r'

/-- One length-prefixed field of a serialised record. -/
def sampleField (s : String) : List Char :=
  Char.ofNat s.length :: s.data

/-- A length-prefixed serialisation of a record, field by field. -/
def sampleMarshal (i : InstaData) : String :=
  String.mk (sampleField i.PostID ++ sampleField i.Username ++ sampleField i.Caption ++
    Char.ofNat i.Medias.length ::
      i.Medias.flatMap (fun m => sampleField m.TypeName ++ sampleField m.URL))

/-- The instance of `Lib` given by tables: `json` lists the valid JSON documents with their
values, `pages` the HTML documents with their trees, `scripts` the script payloads with
their tokens, `records` the serialised records; `marker` is the marker of the line scanner.
An HTML text outside `pages` parses to an empty document, and bytes outside `records` fail
to decode before anything is written to the receiver. -/
def tableLib (json : List (String × JSON)) (pages : List (String × Node))
    (scripts : List (String × List (TokenType × String)))
    (records : List (String × InstaData)) (marker : String) : Lib (Option JSON) where
  gjsonNil := none
  gjsonParse := fun s => tableLookup s json
  gjsonValid := fun s => (tableLookup s json).isSome
  gjsonGet := JSON.get
  gjsonExists := Option.isSome
  gjsonString := JSON.string
  gjsonBool := JSON.toBool
  gjsonArray := JSON.array
  UnescapeJSONString := fun s => String.mk (sampleUnescape s.data)
  escapeJSON := fun s => "\"" ++ s ++ "\""
  NewDocumentFromReader := fun s =>
    match tableLookup s pages with
    | some doc => .ok doc
    | none => .ok (Node.mk NodeType.DocumentNode "" [] [])
  Extract := sampleExtract marker
  jsTokens := fun s => (tableLookup s scripts).getD []
  TrimSpace := fun s =>
    String.mk (((s.data.dropWhile isSpace).reverse.dropWhile isSpace).reverse)
  Marshal := fun i => .ok (sampleMarshal i)
  Unmarshal := fun s i =>
    match tableLookup s records with
    | some cached => (cached, none)
    | none => (i, some (GoError.binary 0))

/-- A world in which the embed request is answered by `page` at the first attempt and the
query request by `gqlAnswer`, at time `now`, with a store that does not fail. -/
def simpleWorld (page : String) (gqlAnswer : Attempt) (now : Int) : World where
  embed := fun _ _ => ⟨none, page⟩
  gql := fun _ => gqlAnswer
  now := now
  dbGetErr := none
  batchSetErr := fun _ => none
  commitErr := none

/-! ## Specification-side definitions -/

/-- What one node contributes to the caption: its data for a text node, a newline for a
`br` element, nothing otherwise. -/
def contribution (n : Node) : String :=
  if n.Type = NodeType.TextNode then n.Data
  else if n.Type = NodeType.ElementNode ∧ n.Data = "br" then "\n"
  else ""

/-- The concatenation of a list of strings, first to last. -/
def concatAll : List String → String
  | [] => ""
  | x :: xs => x ++ concatAll xs

/-- The concatenation of the contributions of the nodes of a forest in document order. -/
def captionText (s : List Node) : String :=
  concatAll ((preorderList s).map contribution)


/-! ## Sample inputs -/

/-- The value of the JSON text `embedJSON username typename mediaURL caption blocked` for
field values without quotes or escapes. -/
def embedTree (username typename mediaURL caption : String) (blocked : Bool) : JSON :=
  .obj [("shortcode_media", .obj [
    ("owner", .obj [("username", .str username)]),
    ("node", .obj [("__typename", .str typename), ("display_url", .str mediaURL)]),
    ("edge_media_to_caption",
      .obj [("edges", .arr [.obj [("node", .obj [("text", .str caption)])]])]),
    ("dimensions", .obj [("height", .null), ("width", .null)]),
    ("video_blocked", .bool blocked)])]

/-- The tree of an HTML document whose body holds `content`. -/
def htmlDoc (content : List Node) : Node :=
  .mk .DocumentNode "" [] [.mk .ElementNode "html" [] [
    .mk .ElementNode "head" [] [],
    .mk .ElementNode "body" [] content]]

/-- An embed page with a user name, an image and a caption. -/
def pageImage : String :=
  "<div class=\"UsernameText\">u</div><img class=\"EmbeddedMediaImage\" src=\"i.jpg\">" ++
  "<div class=\"Caption\">cap</div>"

/-- The tree of `pageImage`. -/
def docImage : Node :=
  htmlDoc [
    .mk .ElementNode "div" [("class", "UsernameText")] [.mk .TextNode "u" [] []],
    .mk .ElementNode "img" [("class", "EmbeddedMediaImage"), ("src", "i.jpg")] [],
    .mk .ElementNode "div" [("class", "Caption")] [.mk .TextNode "cap" [] []]]

/-- An embed page with a user name and no media node. -/
def pageNoMedia : String :=
  "<div class=\"UsernameText\">u</div>"

/-- The tree of `pageNoMedia`. -/
def docNoMedia : Node :=
  htmlDoc [.mk .ElementNode "div" [("class", "UsernameText")] [.mk .TextNode "u" [] []]]

/-- The marker that the sample line scanner looks for. -/
def sampleMarker : String := "TimeSliceImpl "

/-- A script payload: one string literal holding an escaped JSON document. -/
def payloadValid : String :=
  "\"\x7b\\\"gql_data\\\":\x7b\\\"shortcode_media\\\":\x7b\\\"owner\\\":\x7b\\\"username\\\":\\\"u\\\"\x7d\x7d\x7d\x7d\""

/-- The JSON document inside `payloadValid`. -/
def payloadValidJSON : String :=
  "\x7b\"gql_data\":\x7b\"shortcode_media\":\x7b\"owner\":\x7b\"username\":\"u\"\x7d\x7d\x7d\x7d"

/-- A script payload: one string literal holding a truncated JSON document. -/
def payloadBroken : String :=
  "\"\x7b\\\"shortcode_media\\\":\""

/-- A body whose only line is the marker line with the payload `payloadBroken`. -/
def bodyBroken : String := sampleMarker ++ payloadBroken

/-- A body whose first line is the marker line with the payload `payloadValid`, followed by
a closing line. -/
def bodyMarkerThenRest : String := sampleMarker ++ payloadValid ++ "\n</html>"

/-- A fallback response with a `data` field that holds a post. -/
def gqlWithPost : String :=
  "\x7b\"data\":\x7b\"shortcode_media\":\x7b\"owner\":\x7b\"username\":\"u\"\x7d\x7d\x7d\x7d"

/-- A fallback response with an empty `data` field. -/
def gqlEmptyData : String := "\x7b\"data\":\x7b\x7d\x7d"

/-- A fallback response whose post has no owner. -/
def gqlNoOwner : String := "\x7b\"data\":\x7b\"shortcode_media\":\x7b\x7d\x7d\x7d"

/-- A fallback response without a `data` field. -/
def gqlNoData : String := "\x7b\"status\":\"fail\"\x7d"

/-- The value of a JSON text that holds a post with the user name `u` under `field`. -/
def postTree (field : String) : JSON :=
  .obj [(field, .obj [("shortcode_media", .obj [("owner", .obj [("username", .str "u")])])])]

/-- The library instance of the sample runs. -/
def sampleLib : Lib (Option JSON) :=
  tableLib
    [ (embedJSON "u" "GraphImage" "i.jpg" "\"cap\"" "false",
        embedTree "u" "GraphImage" "i.jpg" "cap" false),
      (embedJSON "u" "GraphVideo" "" "\"\"" "false", embedTree "u" "GraphVideo" "" "" false),
      (embedJSON "" "GraphVideo" "" "\"\"" "false", embedTree "" "GraphVideo" "" "" false),
      (payloadValidJSON, postTree "gql_data"),
      (gqlWithPost, postTree "data"),
      (gqlEmptyData, .obj [("data", .obj [])]),
      (gqlNoOwner, .obj [("data", .obj [("shortcode_media", .obj [])])]),
      (gqlNoData, .obj [("status", .str "fail")]) ]
    [ (pageImage, docImage),
      (pageNoMedia, docNoMedia),
      ("", .mk .DocumentNode "" [] []),
      (bodyBroken, htmlDoc [.mk .TextNode bodyBroken [] []]),
      (bodyMarkerThenRest, htmlDoc [.mk .TextNode bodyMarkerThenRest [] []]) ]
    [ (payloadValid, [(TokenType.StringToken, payloadValid)]),
      (payloadBroken, [(TokenType.StringToken, payloadBroken)]) ]
    []
    sampleMarker

/-- A world in which every attempt of the embed request fails with a transport error and
leaves the response empty, and the query request is answered by `gqlAnswer`. -/
def failingWorld (gqlAnswer : Attempt) : World where
  embed := fun _ _ => ⟨some (GoError.transport 1), ""⟩
  gql := fun _ => gqlAnswer
  now := 1700000000000000000
  dbGetErr := none
  batchSetErr := fun _ => none
  commitErr := none

/-- The receiver before a call. -/
def emptyData : InstaData := ⟨"", "", "", []⟩

/-- The number that a list of decimal digits denotes, most significant digit first. -/
def digitsValue (ds : List Nat) : Nat :=
  ds.foldl (fun v d => 10 * v + d) 0

/-- The content of a file with the given lines, separated by newlines, without a newline
after the last line. -/
def joinLines : List (List Char) → List Char
  | [] => []
  | [a] => a
  | a :: b :: rest => a ++ '\n' :: joinLines (b :: rest)
/-! ## Theorems -/

set_option maxRecDepth 100000

/-! ### C6: `gqTextNewLine` -/

theorem contribution_mk (t : NodeType) (d : String) (a : List (String × String))
    (cs : List Node) :
    contribution (Node.mk t d a cs) =
      (if t = NodeType.TextNode then d
       else if t = NodeType.ElementNode ∧ d = "br" then "\n" else "") := rfl

theorem concatAll_append (xs ys : List String) :
    concatAll (xs ++ ys) = concatAll xs ++ concatAll ys := by
  induction xs with
  | nil => simp [concatAll]
  | cons x xs ih => simp [concatAll, ih, String.append_assoc]

mutual
theorem gqTextNewLine_f_eq (n : Node) (sb : String) :
    gqTextNewLine.f n sb = sb ++ concatAll ((preorder n).map contribution) := by
  match n with
  | .mk t d a cs =>
    rw [gqTextNewLine.f, preorder, List.map_cons, concatAll, contribution_mk]
    rw [gqTextNewLine_loop_eq cs]
    by_cases h1 : t = NodeType.TextNode
    · simp [h1, String.append_assoc]
    · by_cases h2 : t = NodeType.ElementNode ∧ d = "br"
      · simp [h1, h2, String.append_assoc]
      · simp [h1, h2]
theorem gqTextNewLine_loop_eq (cs : List Node) (sb : String) :
    gqTextNewLine.loop cs sb = sb ++ concatAll ((preorderList cs).map contribution) := by
  match cs with
  | [] => simp [gqTextNewLine.loop, preorderList, concatAll]
  | c :: cs =>
    rw [gqTextNewLine.loop, gqTextNewLine_loop_eq cs, gqTextNewLine_f_eq c, preorderList,
      List.map_append, concatAll_append, String.append_assoc]
end

theorem gqTextNewLine_foldl_eq (s : List Node) (sb : String) :
    s.foldl (fun sb n => gqTextNewLine.f n sb) sb =
      sb ++ concatAll ((preorderList s).map contribution) := by
  induction s generalizing sb with
  | nil => simp [preorderList, concatAll]
  | cons n s ih =>
    rw [List.foldl_cons, ih, gqTextNewLine_f_eq, preorderList, List.map_append,
      concatAll_append, String.append_assoc]

/-- C6: for every forest of HTML nodes, `gqTextNewLine` returns the concatenation, in
document order, of the data of every text node, with one newline for each `br` element and
nothing for any other node; a caption of two texts separated by one `br` yields the two
texts joined by a single newline. -/
theorem gqTextNewLine_spec :
    (∀ s : List Node, gqTextNewLine s = captionText s) ∧
    (∀ (a b : String) (at1 at2 at3 at4 : List (String × String)),
      gqTextNewLine
        [Node.mk NodeType.ElementNode "div" at1
          [Node.mk NodeType.TextNode a at2 [],
           Node.mk NodeType.ElementNode "br" at3 [],
           Node.mk NodeType.TextNode b at4 []]] = a ++ "\n" ++ b) := by
  have h : ∀ s : List Node, gqTextNewLine s = captionText s := by
    intro s
    rw [gqTextNewLine, gqTextNewLine_foldl_eq, captionText, String.empty_append]
  refine ⟨h, ?_⟩
  intro a b at1 at2 at3 at4
  rw [h]
  simp [captionText, preorderList, preorder, concatAll, contribution, Node.Type, Node.Data,
    String.append_assoc]

/-! ### C1: the fallback query of `getData` -/

theorem length_eq_zero_iff (s : String) : s.length = 0 ↔ s = "" := by
  constructor
  · intro h
    cases s with
    | mk data =>
      have hd : data = [] := List.length_eq_zero.mp h
      subst hd
      rfl
  · intro h
    subst h
    rfl

theorem getData_of_script_none {R : Type} (lib : Lib R) (w : World) (postID : String)
    (n : Nat) (body : String)
    (hbody : retryLoop w postID 3 0 "" = (n, body))
    (hscript : scriptStage lib none body = none) :
    getData lib w postID =
      embedStage lib w postID body (List.replicate n Event.embedFetch) := by
  simp only [getData, hbody, hscript]

theorem gqlQuery_not_mem_replicate (n : Nat) :
    Event.gqlQuery ∉ List.replicate n Event.embedFetch ++ [Event.parseHTML] := by
  simp [List.mem_replicate]

/-- C1: when the embedded-script stage yields nothing and `parseEmbedHTML` succeeds,
`getData` issues the fallback query exactly when the HTML-derived record has
`video_blocked` true or an empty `owner.username`; when the query is issued, succeeds and
its parsed response has a `data` field, `getData` returns that field with a nil error; when
the query is not issued, `getData` returns the HTML-derived record with a nil error. -/
theorem getData_fallback_iff {R : Type} (lib : Lib R) (w : World) (postID : String)
    (n : Nat) (body embedHTML : String)
    (hbody : retryLoop w postID 3 0 "" = (n, body))
    (hscript : scriptStage lib none body = none)
    (hhtml : parseEmbedHTML lib body = .ok embedHTML) :
    let smedia := lib.gjsonGet (lib.gjsonParse embedHTML) "shortcode_media"
    let gqlData := lib.gjsonParse (w.gql postID).body
    (Event.gqlQuery ∈ (getData lib w postID).trace ↔
      (lib.gjsonBool (lib.gjsonGet smedia "video_blocked") = true ∨
        lib.gjsonString (lib.gjsonGet smedia "owner.username") = "")) ∧
    (Event.gqlQuery ∈ (getData lib w postID).trace → (w.gql postID).err = none →
      lib.gjsonExists (lib.gjsonGet gqlData "data") = true →
      (getData lib w postID).data = lib.gjsonGet gqlData "data" ∧
        (getData lib w postID).err = none) ∧
    (Event.gqlQuery ∉ (getData lib w postID).trace →
      (getData lib w postID).data = lib.gjsonParse embedHTML ∧
        (getData lib w postID).err = none) := by
  intro smedia gqlData
  rw [getData_of_script_none lib w postID n body hbody hscript]
  have hnm := gqlQuery_not_mem_replicate n
  by_cases hc : lib.gjsonBool (lib.gjsonGet smedia "video_blocked") = true ∨
      lib.gjsonString (lib.gjsonGet smedia "owner.username") = ""
  · have hc2 : lib.gjsonBool (lib.gjsonGet smedia "video_blocked") = true ∨
        (lib.gjsonString (lib.gjsonGet smedia "owner.username")).length = 0 := by
      rw [length_eq_zero_iff]; exact hc
    have hmem : Event.gqlQuery ∈ (embedStage lib w postID body
        (List.replicate n Event.embedFetch)).trace := by
      simp only [embedStage, hhtml]
      rw [if_pos hc2]
      cases hg : parseGQLData w postID with
      | error e => simp
      | ok v =>
        simp only []
        split <;> [simp; (split <;> simp)]
    refine ⟨⟨fun _ => hc, fun _ => hmem⟩, ?_, fun h => absurd hmem h⟩
    intro _ herr hex
    have hg : parseGQLData w postID = .ok (w.gql postID).body := by
      simp [parseGQLData, herr]
    simp only [embedStage, hhtml]
    rw [if_pos hc2]
    simp only [hg]
    rw [if_pos hex]
    exact ⟨rfl, rfl⟩
  · have hc2 : ¬ (lib.gjsonBool (lib.gjsonGet smedia "video_blocked") = true ∨
        (lib.gjsonString (lib.gjsonGet smedia "owner.username")).length = 0) := by
      rw [length_eq_zero_iff]; exact hc
    have hlen : ¬ (lib.gjsonString (lib.gjsonGet smedia "owner.username")).length = 0 :=
      fun h => hc2 (Or.inr h)
    have heq : embedStage lib w postID body (List.replicate n Event.embedFetch) =
        ⟨lib.gjsonParse embedHTML, none,
          List.replicate n Event.embedFetch ++ [Event.parseHTML]⟩ := by
      simp only [embedStage, hhtml]
      rw [if_neg hc2, if_neg hlen]
    rw [heq]
    exact ⟨⟨fun h => absurd h hnm, fun h => absurd h hc⟩, fun h => absurd h hnm,
      fun _ => ⟨rfl, rfl⟩⟩

/-- Witness of C1 on an embed page with a user name and an image: no query is issued and
the HTML-derived record is returned. -/
theorem getData_fallback_iff_witness :
    retryLoop (simpleWorld pageImage ⟨none, gqlNoData⟩ 0) "p" 3 0 "" = (1, pageImage) ∧
    scriptStage sampleLib none pageImage = none ∧
    parseEmbedHTML sampleLib pageImage =
      .ok (embedJSON "u" "GraphImage" "i.jpg" "\"cap\"" "false") ∧
    Event.gqlQuery ∉ (getData sampleLib (simpleWorld pageImage ⟨none, gqlNoData⟩ 0) "p").trace ∧
    (getData sampleLib (simpleWorld pageImage ⟨none, gqlNoData⟩ 0) "p").data =
      some (embedTree "u" "GraphImage" "i.jpg" "cap" false) :=
  have h1 : retryLoop (simpleWorld pageImage ⟨none, gqlNoData⟩ 0) "p" 3 0 "" =
      (1, pageImage) := by decide
  have h2 : scriptStage sampleLib none pageImage = none := by rfl
  have h3 : parseEmbedHTML sampleLib pageImage =
      .ok (embedJSON "u" "GraphImage" "i.jpg" "\"cap\"" "false") := by rfl
  have h := getData_fallback_iff sampleLib (simpleWorld pageImage ⟨none, gqlNoData⟩ 0) "p" 1
    pageImage _ h1 h2 h3
  have hn : Event.gqlQuery ∉
      (getData sampleLib (simpleWorld pageImage ⟨none, gqlNoData⟩ 0) "p").trace :=
    fun hm => by
      have := h.1.mp hm
      revert this
      decide
  ⟨h1, h2, h3, hn, by rw [(h.2.2 hn).1]; rfl⟩

/-! ### C10: the media kind chosen by `parseEmbedHTML` -/

theorem Attr_cons (n : Node) (rest : List Node) (name : String) :
    (Attr (n :: rest) name).1 = (attrLookup name n.Attr).getD "" := by
  cases h : attrLookup name n.Attr <;> simp [Attr, h]

theorem embedMedia_cons (doc n : Node) (rest : List Node)
    (h : Find doc "EmbeddedMediaImage" = n :: rest) :
    embedMedia doc = ("GraphImage", (attrLookup "src" n.Attr).getD "") := by
  simp [embedMedia, h, Attr_cons]

theorem embedMedia_nil (doc : Node) (h : Find doc "EmbeddedMediaImage" = []) :
    embedMedia doc = ("GraphVideo", (Attr (Find doc "EmbeddedMediaVideo") "src").1) := by
  simp [embedMedia, h]

/-- C10 (counterexample): on a parsed embed document with neither an image-class node nor
a video-class node, the synthesized record has the kind `GraphVideo`, not `GraphImage`. -/
theorem parseEmbedHTML_no_media_counterexample :
    sampleLib.NewDocumentFromReader pageNoMedia = .ok docNoMedia ∧
    Find docNoMedia "EmbeddedMediaImage" = [] ∧
    Find docNoMedia "EmbeddedMediaVideo" = [] ∧
    parseEmbedHTML sampleLib pageNoMedia =
      .ok (embedJSON "u" "GraphVideo" "" "\"\"" "false") ∧
    parseEmbedHTML sampleLib pageNoMedia ≠
      .ok (embedJSON "u" "GraphImage" "" "\"\"" "false") := by
  have h : parseEmbedHTML sampleLib pageNoMedia =
      .ok (embedJSON "u" "GraphVideo" "" "\"\"" "false") := by rfl
  refine ⟨rfl, by rfl, by rfl, h, ?_⟩
  rw [h]
  intro hne
  have hs := Except.ok.inj hne
  revert hs
  decide

/-- C10 (amended): on a parsed embed document, `parseEmbedHTML` checks the image-class
node first: if one is present the kind is `GraphImage` with the `src` of the first such
node; else if a video-class node is present the kind is `GraphVideo` with the `src` of the
first such node; and if neither is present the kind is `GraphVideo` with an empty URL. -/
theorem parseEmbedHTML_media_kind {R : Type} (lib : Lib R) (embedHTML : String) (doc : Node)
    (hdoc : lib.NewDocumentFromReader embedHTML = .ok doc) :
    (∀ n rest, Find doc "EmbeddedMediaImage" = n :: rest →
      parseEmbedHTML lib embedHTML =
        .ok (embedJSON (Text (Find doc "UsernameText")) "GraphImage"
          ((attrLookup "src" n.Attr).getD "") (lib.escapeJSON (embedCaption doc))
          (FormatBool (Contains embedHTML "WatchOnInstagram")))) ∧
    (Find doc "EmbeddedMediaImage" = [] →
      ∀ n rest, Find doc "EmbeddedMediaVideo" = n :: rest →
      parseEmbedHTML lib embedHTML =
        .ok (embedJSON (Text (Find doc "UsernameText")) "GraphVideo"
          ((attrLookup "src" n.Attr).getD "") (lib.escapeJSON (embedCaption doc))
          (FormatBool (Contains embedHTML "WatchOnInstagram")))) ∧
    (Find doc "EmbeddedMediaImage" = [] → Find doc "EmbeddedMediaVideo" = [] →
      parseEmbedHTML lib embedHTML =
        .ok (embedJSON (Text (Find doc "UsernameText")) "GraphVideo" ""
          (lib.escapeJSON (embedCaption doc))
          (FormatBool (Contains embedHTML "WatchOnInstagram")))) := by
  refine ⟨?_, ?_, ?_⟩
  · intro n rest h
    simp only [parseEmbedHTML, hdoc, embedMedia_cons doc n rest h]
  · intro h n rest hv
    simp only [parseEmbedHTML, hdoc, embedMedia_nil doc h, hv, Attr_cons]
  · intro h hv
    simp only [parseEmbedHTML, hdoc, embedMedia_nil doc h, hv, Attr]

/-- Witness of C10 on an embed page with an image node. -/
theorem parseEmbedHTML_media_kind_witness :
    sampleLib.NewDocumentFromReader pageImage = .ok docImage ∧
    parseEmbedHTML sampleLib pageImage =
      .ok (embedJSON "u" "GraphImage" "i.jpg" "\"cap\"" "false") :=
  ⟨rfl, by
    have h := (parseEmbedHTML_media_kind sampleLib pageImage docImage rfl).1
      (.mk .ElementNode "img" [("class", "EmbeddedMediaImage"), ("src", "i.jpg")] []) []
      (by rfl)
    rw [h]
    rfl⟩

/-! ### C4: the embed fetch fails three times -/

theorem retryLoop_attempts_le (w : World) (postID : String) :
    (retryLoop w postID 3 0 "").1 ≤ 3 := by
  simp only [retryLoop]
  split <;> [simp; (split <;> [simp; (split <;> simp)])]

/-- C4 (the code at the failing input): every attempt of the embed request fails with a
transport error and leaves an empty response. `getData` makes three attempts, then parses
the empty body and issues the fallback query; it returns the `data` field of the fallback
response with a nil error, and `ErrNotFound` when that response has no `data` field. In
neither case is the transport error returned. -/
theorem getData_transport_error_dropped :
    (getData sampleLib (failingWorld ⟨none, gqlWithPost⟩) "p").trace =
      [Event.embedFetch, Event.embedFetch, Event.embedFetch, Event.parseHTML,
        Event.gqlQuery] ∧
    (getData sampleLib (failingWorld ⟨none, gqlWithPost⟩) "p").err = none ∧
    (getData sampleLib (failingWorld ⟨none, gqlWithPost⟩) "p").data =
      some (.obj [("shortcode_media", .obj [("owner", .obj [("username", .str "u")])])]) ∧
    (getData sampleLib (failingWorld ⟨none, gqlNoData⟩) "p").err =
      some GoError.ErrNotFound :=
  ⟨by rfl, by rfl, by rfl, by rfl⟩

/-! ### C8: the scan for the marker line -/

theorem ldeScan_last_line {R : Type} (lib : Lib R) (body : String) (lines : List String)
    (last : String) (h : Split body '\n' = lines ++ [last]) :
    (ldeScan lib body).2 =
      (lib.Extract (lines.foldl (fun st line => lib.Extract st.1 line)
        (⟨"", ""⟩, false)).1 last).2 := by
  rw [ldeScan, h, List.foldl_append]
  rfl

/-- C8 (the code at the failing input): the first line of the body matches the marker and
a line that does not match follows. After the scan `ldeMatch` is false, the
embedded-script stage is not entered and `getData` goes on to parse the embed HTML; on
the marker line alone the stage is entered and returns the `gql_data` field. -/
theorem getData_marker_line_followed :
    Split bodyMarkerThenRest '\n' = [sampleMarker ++ payloadValid, "</html>"] ∧
    (sampleLib.Extract ⟨"", ""⟩ (sampleMarker ++ payloadValid)).2 = true ∧
    (ldeScan sampleLib bodyMarkerThenRest).2 = false ∧
    scriptStage sampleLib none bodyMarkerThenRest = none ∧
    (getData sampleLib (simpleWorld bodyMarkerThenRest ⟨none, gqlNoData⟩ 0) "p").trace =
      [Event.embedFetch, Event.parseHTML, Event.gqlQuery] ∧
    scriptStage sampleLib none (sampleMarker ++ payloadValid) =
      some (some (.obj [("shortcode_media", .obj [("owner", .obj [("username", .str "u")])])]),
        none) :=
  ⟨by decide, by decide, by decide, by rfl, by rfl, by rfl⟩

/-! ### C7: `getRandomProxy` -/

/-- C7 (the code at the failing input): the proxy file holds one address on a line that is
terminated by a newline. `strings.Split` yields the address and an empty string, and
`getRandomProxy` returns the empty string when the index drawn is 1. -/
theorem getRandomProxy_trailing_newline :
    Split "1.2.3.4:1080\n" '\n' = ["1.2.3.4:1080", ""] ∧
    getRandomProxy "proxies.txt" (fun _ => .ok "1.2.3.4:1080\n") 0 = "1.2.3.4:1080" ∧
    getRandomProxy "proxies.txt" (fun _ => .ok "1.2.3.4:1080\n") 1 = "" ∧
    getRandomProxy "proxies.txt" (fun _ => .ok "1.2.3.4:1080\n") 1 ∉ ["1.2.3.4:1080"] :=
  ⟨by decide, by decide, by decide, by decide⟩

/-! ### C5: a script payload that is not valid JSON -/

theorem tokenLoop_of_find {R : Type} (lib : Lib R) (err : Option GoError)
    (tokens : List (TokenType × String)) (tt : TokenType) (text : String)
    (hfirst : tokens.find?
      (fun t => decide (t.1 = TokenType.StringToken) && Contains t.2 "shortcode_media") =
        some (tt, text))
    (hinvalid : lib.gjsonValid
      (lib.UnescapeJSONString (String.mk (text.data.drop 1).dropLast)) = false) :
    tokenLoop lib err tokens = some (lib.gjsonNil, err) := by
  induction tokens with
  | nil => simp at hfirst
  | cons t rest ih =>
    obtain ⟨tt1, text1⟩ := t
    by_cases hc : tt1 = TokenType.StringToken ∧ Contains text1 "shortcode_media" = true
    · have hp : (decide (tt1 = TokenType.StringToken) && Contains text1 "shortcode_media") =
          true := by simp [hc.1, hc.2]
      simp only [List.find?_cons, hp] at hfirst
      have ht : text1 = text := by
        have := Option.some.inj hfirst
        exact (Prod.mk.inj this).2
      subst ht
      simp only [tokenLoop]
      rw [if_pos hc, if_pos hinvalid]
    · have hp : (decide (tt1 = TokenType.StringToken) && Contains text1 "shortcode_media") =
          false := by
        cases hb : (decide (tt1 = TokenType.StringToken) && Contains text1 "shortcode_media")
        · rfl
        · simp only [Bool.and_eq_true, decide_eq_true_eq] at hb
          exact absurd hb hc
      simp only [List.find?_cons, hp] at hfirst
      simp only [tokenLoop]
      rw [if_neg hc]
      exact ih hfirst

/-- C5 (counterexample): the body is a marker line whose payload is a string literal that
contains `shortcode_media` and is not valid JSON after unescaping. `getData` returns the
empty result, while the embed HTML and fallback path on the same body returns the `data`
field of the fallback response. -/
theorem getData_invalid_script_counterexample :
    ldeScan sampleLib bodyBroken = (⟨"", payloadBroken⟩, true) ∧
    sampleLib.jsTokens payloadBroken = [(TokenType.StringToken, payloadBroken)] ∧
    Contains payloadBroken "shortcode_media" = true ∧
    sampleLib.UnescapeJSONString (String.mk (payloadBroken.data.drop 1).dropLast) =
      "\x7b\"shortcode_media\":" ∧
    sampleLib.gjsonValid "\x7b\"shortcode_media\":" = false ∧
    (getData sampleLib (simpleWorld bodyBroken ⟨none, gqlWithPost⟩ 0) "p").data = none ∧
    (embedStage sampleLib (simpleWorld bodyBroken ⟨none, gqlWithPost⟩ 0) "p" bodyBroken
      [Event.embedFetch]).data =
        some (.obj [("shortcode_media", .obj [("owner", .obj [("username", .str "u")])])]) ∧
    (getData sampleLib (simpleWorld bodyBroken ⟨none, gqlWithPost⟩ 0) "p").data ≠
      (embedStage sampleLib (simpleWorld bodyBroken ⟨none, gqlWithPost⟩ 0) "p" bodyBroken
        [Event.embedFetch]).data := by
  have h1 : (getData sampleLib (simpleWorld bodyBroken ⟨none, gqlWithPost⟩ 0) "p").data =
      none := by rfl
  have h2 : (embedStage sampleLib (simpleWorld bodyBroken ⟨none, gqlWithPost⟩ 0) "p"
      bodyBroken [Event.embedFetch]).data =
        some (.obj [("shortcode_media", .obj [("owner", .obj [("username", .str "u")])])]) := by
    rfl
  refine ⟨by decide, by rfl, by decide, by decide, by rfl, h1, h2, ?_⟩
  rw [h1, h2]
  exact fun h => Option.noConfusion h

/-- C5 (amended): when the marker scan succeeds and the first string-literal token that
contains `shortcode_media` is not valid JSON after quote-stripping and unescaping,
`getData` does not fall through: it returns the empty result `gjson.Result{}` from the
embedded-script stage, having made only the embed requests, without parsing the embed HTML
and without the fallback query. -/
theorem getData_invalid_script_returns {R : Type} (lib : Lib R) (w : World)
    (postID : String) (n : Nat) (body : String) (l : Line) (tt : TokenType) (text : String)
    (hbody : retryLoop w postID 3 0 "" = (n, body))
    (hscan : ldeScan lib body = (l, true))
    (hfirst : (lib.jsTokens l.TimeSliceImplValue).find?
      (fun t => decide (t.1 = TokenType.StringToken) && Contains t.2 "shortcode_media") =
        some (tt, text))
    (hinvalid : lib.gjsonValid
      (lib.UnescapeJSONString (String.mk (text.data.drop 1).dropLast)) = false) :
    (getData lib w postID).data = lib.gjsonNil ∧
    (getData lib w postID).trace = List.replicate n Event.embedFetch ∧
    Event.parseHTML ∉ (getData lib w postID).trace ∧
    Event.gqlQuery ∉ (getData lib w postID).trace := by
  have hs : scriptStage lib none body = some (lib.gjsonNil, none) := by
    simp only [scriptStage, hscan]
    exact tokenLoop_of_find lib none _ tt text hfirst hinvalid
  have hg : getData lib w postID =
      ⟨lib.gjsonNil, none, List.replicate n Event.embedFetch⟩ := by
    simp only [getData, hbody, hs]
  rw [hg]
  refine ⟨rfl, rfl, ?_, ?_⟩ <;> simp [List.mem_replicate]

/-- Witness of C5 (amended) on the body `bodyBroken`. -/
theorem getData_invalid_script_returns_witness :
    (getData sampleLib (simpleWorld bodyBroken ⟨none, gqlWithPost⟩ 0) "p").data = none ∧
    (getData sampleLib (simpleWorld bodyBroken ⟨none, gqlWithPost⟩ 0) "p").trace =
      [Event.embedFetch] :=
  have h := getData_invalid_script_returns sampleLib
    (simpleWorld bodyBroken ⟨none, gqlWithPost⟩ 0) "p" 1 bodyBroken ⟨"", payloadBroken⟩
    TokenType.StringToken payloadBroken (by decide) (by decide) (by rfl) (by rfl)
  ⟨h.1, h.2.1⟩

/-! ### C2: `ErrNotFound` and the records that are written -/

theorem embedStage_no_data {R : Type} (lib : Lib R) (w : World) (postID body : String)
    (trace : List Event) (embedHTML : String)
    (hhtml : parseEmbedHTML lib body = .ok embedHTML)
    (hnodata : (w.gql postID).err = none →
      lib.gjsonExists (lib.gjsonGet (lib.gjsonParse (w.gql postID).body) "data") = false) :
    ((embedStage lib w postID body trace).err = none →
      (embedStage lib w postID body trace).data = lib.gjsonParse embedHTML ∧
      lib.gjsonString (lib.gjsonGet (lib.gjsonGet (lib.gjsonParse embedHTML)
        "shortcode_media") "owner.username") ≠ "") ∧
    (lib.gjsonString (lib.gjsonGet (lib.gjsonGet (lib.gjsonParse embedHTML)
        "shortcode_media") "owner.username") = "" → (w.gql postID).err = none →
      (embedStage lib w postID body trace).err = some GoError.ErrNotFound) := by
  have hlen := length_eq_zero_iff (lib.gjsonString (lib.gjsonGet (lib.gjsonGet
    (lib.gjsonParse embedHTML) "shortcode_media") "owner.username"))
  by_cases hl : (lib.gjsonString (lib.gjsonGet (lib.gjsonGet (lib.gjsonParse embedHTML)
      "shortcode_media") "owner.username")).length = 0 <;>
  by_cases hv : lib.gjsonBool (lib.gjsonGet (lib.gjsonGet (lib.gjsonParse embedHTML)
      "shortcode_media") "video_blocked") = true <;>
  cases hg : (w.gql postID).err <;>
  simp [embedStage, hhtml, parseGQLData, hg, hl, hv, hnodata, ← hlen]

theorem GetData_miss {R : Type} (lib : Lib R) (w : World) (db : Store) (i : InstaData)
    (postID : String) (hget : w.dbGetErr = none) (hmiss : db.get postID = none) :
    ((getData lib w postID).err ≠ none →
      (GetData lib w db i postID).err = (getData lib w postID).err ∧
      (GetData lib w db i postID).db = db) ∧
    ((GetData lib w db i postID).err ≠ none → (GetData lib w db i postID).db = db) ∧
    ((GetData lib w db i postID).err = none →
      (getData lib w postID).err = none ∧
      (GetData lib w db i postID).i =
        buildRecord lib postID (lib.gjsonGet (getData lib w postID).data "shortcode_media") ∧
      ∃ bb, lib.Marshal (GetData lib w db i postID).i = .ok bb ∧
        (GetData lib w db i postID).db = cacheWrite db postID bb w.now) := by
  have hdb : DBGet w db postID = ("", some GoError.pebbleErrNotFound) := by
    simp [DBGet, hget, hmiss]
  have hlen : ¬ ("" : String).length > 0 := by decide
  simp only [GetData, hdb]
  rw [if_neg (by simp), if_neg hlen]
  cases hf : (getData lib w postID).err with
  | some e => simp
  | none =>
    simp only []
    split
    · simp
    · cases hm : lib.Marshal _ with
      | error e => simp
      | ok bb =>
        simp only []
        cases w.batchSetErr 0 with
        | some e => simp
        | none =>
          simp only []
          cases w.batchSetErr 1 with
          | some e => simp
          | none =>
            simp only []
            cases w.commitErr with
            | some e => simp
            | none => simp [hm]

/-- C2 (the code at the failing input): the embed page has no user name, the script stage
yields nothing, and the fallback response holds a post without an owner, so that no
extractor path supplies a user name. `getData` returns the `data` field of the fallback
response without the check that the HTML path makes at line 231, and `GetData` returns nil
and writes to the store, under the post id, a record whose `Username` is empty, together
with its expiration entry. -/
theorem GetData_persists_empty_username :
    scriptStage sampleLib none "" = none ∧
    parseEmbedHTML sampleLib "" = .ok (embedJSON "" "GraphVideo" "" "\"\"" "false") ∧
    sampleLib.gjsonString (sampleLib.gjsonGet (sampleLib.gjsonGet
      (sampleLib.gjsonParse (embedJSON "" "GraphVideo" "" "\"\"" "false"))
      "shortcode_media") "owner.username") = "" ∧
    sampleLib.gjsonString (sampleLib.gjsonGet (sampleLib.gjsonGet (sampleLib.gjsonGet
      (sampleLib.gjsonParse gqlNoOwner) "data") "shortcode_media") "owner.username") = "" ∧
    (getData sampleLib (simpleWorld "" ⟨none, gqlNoOwner⟩ 0) "p").err = none ∧
    (GetData sampleLib (simpleWorld "" ⟨none, gqlNoOwner⟩ 0) [] emptyData "p").err = none ∧
    (GetData sampleLib (simpleWorld "" ⟨none, gqlNoOwner⟩ 0) [] emptyData "p").i =
      ⟨"p", "", "", [⟨"", ""⟩]⟩ ∧
    (GetData sampleLib (simpleWorld "" ⟨none, gqlNoOwner⟩ 0) [] emptyData "p").i.Username =
      "" ∧
    (GetData sampleLib (simpleWorld "" ⟨none, gqlNoOwner⟩ 0) [] emptyData "p").db =
      [("exp-86400000000000", "p"), ("p", sampleMarshal ⟨"p", "", "", [⟨"", ""⟩]⟩)] ∧
    Store.get (GetData sampleLib (simpleWorld "" ⟨none, gqlNoOwner⟩ 0) [] emptyData "p").db
      "p" = some (sampleMarshal ⟨"p", "", "", [⟨"", ""⟩]⟩) :=
  ⟨by rfl, by rfl, by rfl, by rfl, by rfl, by rfl, by rfl, by rfl, by rfl, by rfl⟩

/-- The same page with a fallback response whose `data` field is empty: `GetData` returns
the error of line 78 and leaves the store as it was. -/
theorem GetData_empty_fallback_data :
    (GetData sampleLib (simpleWorld "" ⟨none, gqlEmptyData⟩ 0) [] emptyData "p").err =
      some GoError.shortcodeMediaNotFound ∧
    (GetData sampleLib (simpleWorld "" ⟨none, gqlEmptyData⟩ 0) [] emptyData "p").db = [] :=
  ⟨by rfl, by rfl⟩

/-- The part of C2 that holds, where the HTML path decides: on a cache miss, when the
embedded-script stage yields nothing, `parseEmbedHTML` succeeds and the fallback query, if
it succeeds, has no `data` field: if the HTML-derived `owner.username` is empty and the
query succeeds, `GetData` returns `ErrNotFound` and leaves the store as it was; whenever
`GetData` returns an error the store is as it was; and whenever it returns nil, the store
is the cache write of the serialised receiver, whose `Username` is not empty. -/
theorem GetData_html_path_username {R : Type} (lib : Lib R) (w : World) (db : Store)
    (i : InstaData) (postID : String) (n : Nat) (body embedHTML : String)
    (hget : w.dbGetErr = none) (hmiss : db.get postID = none)
    (hbody : retryLoop w postID 3 0 "" = (n, body))
    (hscript : scriptStage lib none body = none)
    (hhtml : parseEmbedHTML lib body = .ok embedHTML)
    (hnodata : (w.gql postID).err = none →
      lib.gjsonExists (lib.gjsonGet (lib.gjsonParse (w.gql postID).body) "data") = false) :
    (lib.gjsonString (lib.gjsonGet (lib.gjsonGet (lib.gjsonParse embedHTML)
        "shortcode_media") "owner.username") = "" → (w.gql postID).err = none →
      (GetData lib w db i postID).err = some GoError.ErrNotFound ∧
      (GetData lib w db i postID).db = db) ∧
    ((GetData lib w db i postID).err ≠ none → (GetData lib w db i postID).db = db) ∧
    ((GetData lib w db i postID).err = none →
      (GetData lib w db i postID).i.Username ≠ "" ∧
      ∃ bb, lib.Marshal (GetData lib w db i postID).i = .ok bb ∧
        (GetData lib w db i postID).db = cacheWrite db postID bb w.now) := by
  have hgd := getData_of_script_none lib w postID n body hbody hscript
  have hes := embedStage_no_data lib w postID body (List.replicate n Event.embedFetch)
    embedHTML hhtml hnodata
  have hm := GetData_miss lib w db i postID hget hmiss
  rw [hgd] at hm
  refine ⟨?_, hm.2.1, ?_⟩
  · intro hu hg
    have he := hes.2 hu hg
    have h := hm.1 (by rw [he]; simp)
    exact ⟨h.1.trans he, h.2⟩
  · intro hnil
    obtain ⟨he, hi, hw⟩ := hm.2.2 hnil
    obtain ⟨hd, hu⟩ := hes.1 he
    refine ⟨?_, hw⟩
    rw [hi, hd]
    exact hu

/-- Witness of the part of C2 that holds: an embed page without a user name and a fallback
response without a `data` field give `ErrNotFound` and an unchanged store. -/
theorem GetData_html_path_username_witness :
    (GetData sampleLib (simpleWorld "" ⟨none, gqlNoData⟩ 0) [] emptyData "p").err =
      some GoError.ErrNotFound ∧
    (GetData sampleLib (simpleWorld "" ⟨none, gqlNoData⟩ 0) [] emptyData "p").db = [] :=
  (GetData_html_path_username sampleLib (simpleWorld "" ⟨none, gqlNoData⟩ 0) [] emptyData "p"
    3 "" (embedJSON "" "GraphVideo" "" "\"\"" "false") rfl rfl (by decide) (by rfl) (by rfl)
    (fun _ => by rfl)).1 (by rfl) rfl

/-! ### C9: the order of the expiration keys -/

theorem foldl_digits (ds : List Nat) (v : Nat) :
    ds.foldl (fun v d => 10 * v + d) v = v * 10 ^ ds.length + digitsValue ds := by
  induction ds generalizing v with
  | nil => simp [digitsValue]
  | cons d ds ih =>
    have e : digitsValue (d :: ds) = (10 * 0 + d) * 10 ^ ds.length + digitsValue ds := by
      simp only [digitsValue, List.foldl_cons]
      rw [ih (10 * 0 + d)]
      simp only [digitsValue]
    rw [List.foldl_cons, ih, e, List.length_cons]
    ring

theorem digitsValue_cons (d : Nat) (ds : List Nat) :
    digitsValue (d :: ds) = d * 10 ^ ds.length + digitsValue ds := by
  rw [digitsValue, List.foldl_cons, foldl_digits]
  simp

theorem digitsValue_snoc (ds : List Nat) (d : Nat) :
    digitsValue (ds ++ [d]) = 10 * digitsValue ds + d := by
  simp [digitsValue, List.foldl_append]

theorem digitsValue_lt (ds : List Nat) (h : ∀ d ∈ ds, d < 10) :
    digitsValue ds < 10 ^ ds.length := by
  induction ds with
  | nil => simp [digitsValue]
  | cons d ds ih =>
    have h1 : d < 10 := h d (List.mem_cons_self _ _)
    have h2 := ih (fun x hx => h x (List.mem_cons_of_mem _ hx))
    rw [digitsValue_cons, List.length_cons, pow_succ]
    nlinarith

theorem formatBits_spec (fuel : Nat) :
    ∀ (u : Nat) (acc : List Nat), u < 10 ^ fuel →
      ∃ ds, formatBits fuel u acc = ds ++ acc ∧ (∀ d ∈ ds, d < 10) ∧ digitsValue ds = u := by
  induction fuel with
  | zero =>
    intro u acc hu
    refine ⟨[], by simp [formatBits], by simp, ?_⟩
    simp at hu
    simp [digitsValue, hu]
  | succ fuel ih =>
    intro u acc hu
    by_cases h : u < 10
    · refine ⟨[u], by simp [formatBits, h], by simpa using h, by simp [digitsValue]⟩
    · have hdiv : u / 10 < 10 ^ fuel := by
        rw [Nat.div_lt_iff_lt_mul (by norm_num)]
        rw [pow_succ] at hu
        exact hu
      obtain ⟨ds, h1, h2, h3⟩ := ih (u / 10) (u % 10 :: acc) hdiv
      refine ⟨ds ++ [u % 10], ?_, ?_, ?_⟩
      · simp [formatBits, h, h1]
      · intro d hd
        rcases List.mem_append.mp hd with hd | hd
        · exact h2 d hd
        · simp at hd
          omega
      · rw [digitsValue_snoc, h3]
        omega

theorem decDigits_spec (u : Nat) :
    (∀ d ∈ decDigits u, d < 10) ∧ digitsValue (decDigits u) = u := by
  have hu : u < 10 ^ (u + 1) :=
    lt_of_lt_of_le (Nat.lt_pow_self (by norm_num) u) (Nat.pow_le_pow_right (by norm_num) (by omega))
  obtain ⟨ds, h1, h2, h3⟩ := formatBits_spec (u + 1) u [] hu
  rw [decDigits, h1, List.append_nil]
  exact ⟨h2, h3⟩

theorem digitChar_toNat (d : Nat) (h : d < 10) : (digitChar d).toNat = 48 + d := by
  interval_cases d <;> rfl

theorem bytesLess_digits (xs : List Nat) :
    ∀ ys : List Nat, xs.length = ys.length → (∀ d ∈ xs, d < 10) → (∀ d ∈ ys, d < 10) →
      digitsValue xs < digitsValue ys →
      bytesLess (xs.map digitChar) (ys.map digitChar) = true := by
  induction xs with
  | nil =>
    intro ys hl _ _ hv
    cases ys with
    | nil => simp [digitsValue] at hv
    | cons y ys => simp at hl
  | cons a as ih =>
    intro ys hl hx hy hv
    cases ys with
    | nil => simp at hl
    | cons b bs =>
      have hl2 : as.length = bs.length := by simpa using hl
      have ha : a < 10 := hx a (List.mem_cons_self _ _)
      have hb : b < 10 := hy b (List.mem_cons_self _ _)
      have hxs := fun d hd => hx d (List.mem_cons_of_mem _ hd)
      have hys := fun d hd => hy d (List.mem_cons_of_mem _ hd)
      have h1 := digitsValue_lt as hxs
      have h2 := digitsValue_lt bs hys
      rw [digitsValue_cons, digitsValue_cons, hl2] at hv
      rw [hl2] at h1
      simp only [List.map_cons, bytesLess, digitChar_toNat a ha, digitChar_toNat b hb]
      by_cases hab : a < b
      · simp [hab]
      · have hba : ¬ b < a := by
          intro hba
          have : (b + 1) * 10 ^ bs.length ≤ a * 10 ^ bs.length :=
            Nat.mul_le_mul_right _ hba
          nlinarith
        have heq : a = b := by omega
        subst heq
        simp only [Nat.add_lt_add_iff_left, lt_self_iff_false, if_false]
        exact ih bs hl2 hxs hys (by omega)

theorem bytesLess_append (p a b : List Char) :
    bytesLess (p ++ a) (p ++ b) = bytesLess a b := by
  induction p with
  | nil => rfl
  | cons c p ih => simp [bytesLess, ih]

theorem FormatInt_nonneg (t : Int) (h : 0 ≤ t) :
    (FormatInt t).data = (decDigits t.toNat).map digitChar := by
  simp [FormatInt, not_lt.mpr h]

theorem pointerKey_data (t : Int) :
    (pointerKey t).data = ['e', 'x', 'p', '-'] ++ (FormatInt t).data := by
  rw [pointerKey, String.data_append]

/-- C9 (counterexample): for the timestamps 9 < 10, the key of 10 comes before the key of
9 in byte order. -/
theorem pointerKey_order_counterexample :
    (9 : Int) < 10 ∧ pointerKey 9 = "exp-9" ∧ pointerKey 10 = "exp-10" ∧
    bytesLess (pointerKey 9).data (pointerKey 10).data = false ∧
    bytesLess (pointerKey 10).data (pointerKey 9).data = true :=
  ⟨by decide, by decide, by decide, by decide, by decide⟩

/-- C9 (amended): for all expiry timestamps `0 ≤ t1 < t2` whose decimal forms have the same
number of digits (as have all times from the year 2001 to the year 2262), the keys
`"exp-" ++ strconv.FormatInt(t, 10)` satisfy `key(t1) < key(t2)` in byte order. -/
theorem pointerKey_order (t1 t2 : Int) (h0 : 0 ≤ t1) (hlt : t1 < t2)
    (hlen : (FormatInt t1).length = (FormatInt t2).length) :
    bytesLess (pointerKey t1).data (pointerKey t2).data = true := by
  have h2 : 0 ≤ t2 := le_trans h0 (le_of_lt hlt)
  have hl : (decDigits t1.toNat).length = (decDigits t2.toNat).length := by
    have := hlen
    rw [String.length, String.length, FormatInt_nonneg t1 h0, FormatInt_nonneg t2 h2,
      List.length_map, List.length_map] at this
    exact this
  obtain ⟨hd1, hv1⟩ := decDigits_spec t1.toNat
  obtain ⟨hd2, hv2⟩ := decDigits_spec t2.toNat
  rw [pointerKey_data, pointerKey_data, bytesLess_append, FormatInt_nonneg t1 h0,
    FormatInt_nonneg t2 h2]
  apply bytesLess_digits _ _ hl hd1 hd2
  rw [hv1, hv2]
  omega

/-- Witness of C9 (amended) at two consecutive nanoseconds of the year 2023. -/
theorem pointerKey_order_witness :
    (0 : Int) ≤ 1700000000000000000 ∧
    (1700000000000000000 : Int) < 1700000000000000001 ∧
    bytesLess (pointerKey 1700000000000000000).data (pointerKey 1700000000000000001).data =
      true :=
  ⟨by decide, by decide,
    pointerKey_order 1700000000000000000 1700000000000000001 (by decide) (by decide)
      (by decide)⟩

/-! ### C3: records and expiration entries -/

theorem Split_go_line (a tail : List Char) (ha : '\n' ∉ a) :
    Split.go '\n' (a ++ '\n' :: tail) = a :: Split.go '\n' tail := by
  induction a with
  | nil => simp [Split.go]
  | cons c a ih =>
    have hc : c ≠ '\n' := fun h => ha (by simp [h])
    have ha2 : '\n' ∉ a := fun h => ha (List.mem_cons_of_mem _ h)
    simp [Split.go, hc, ih ha2]

theorem Split_go_last (a : List Char) (ha : '\n' ∉ a) : Split.go '\n' a = [a] := by
  induction a with
  | nil => simp [Split.go]
  | cons c a ih =>
    have hc : c ≠ '\n' := fun h => ha (by simp [h])
    have ha2 : '\n' ∉ a := fun h => ha (List.mem_cons_of_mem _ h)
    simp [Split.go, hc, ih ha2]

theorem Split_go_joinLines (a : List Char) (rest : List (List Char))
    (h : ∀ x ∈ a :: rest, '\n' ∉ x) :
    Split.go '\n' (joinLines (a :: rest)) = a :: rest := by
  induction rest generalizing a with
  | nil => exact Split_go_last a (h a (by simp))
  | cons b rest ih =>
    rw [joinLines, Split_go_line a _ (h a (by simp)),
      ih b (fun x hx => h x (List.mem_cons_of_mem _ hx))]

/-- The part of C7 that holds: when the proxy file holds `N ≥ 1` addresses separated by
newlines, without a newline after the last one, `getRandomProxy` returns one of them for
every index drawn; and with an empty `ProxyFilePath` it returns the empty string. -/
theorem getRandomProxy_no_trailing_newline (path : String) (a : String)
    (rest : List String) (rnd : Nat) (hpath : path ≠ "")
    (hlines : ∀ x ∈ a :: rest, '\n' ∉ x.data) :
    getRandomProxy path
      (fun _ => .ok (String.mk (joinLines ((a :: rest).map String.data)))) rnd ∈ a :: rest ∧
    (∀ (ReadFile : String → Except GoError String), getRandomProxy "" ReadFile rnd = "") := by
  refine ⟨?_, fun _ => by simp [getRandomProxy]⟩
  have hs : Split (String.mk (joinLines ((a :: rest).map String.data))) '\n' = a :: rest := by
    rw [Split, List.map_cons, Split_go_joinLines]
    · have hid : ∀ l : List String, l.map (String.mk ∘ String.data) = l := by
        intro l
        induction l with
        | nil => rfl
        | cons s l ih => rw [List.map_cons, ih]; rfl
      simp [hid]
    · intro x hx
      rw [← List.map_cons] at hx
      obtain ⟨y, hy, hxy⟩ := List.mem_map.mp hx
      rw [← hxy]
      exact hlines y hy
  simp only [getRandomProxy, hpath, if_false, hs]
  have hlen : Intn rnd (a :: rest).length < (a :: rest).length :=
    Nat.mod_lt _ (by simp)
  rw [if_neg (by simp)]
  rw [List.getD_eq_getElem _ _ hlen]
  exact List.getElem_mem _

/-- Witness of the part of C7 that holds, on a file with two addresses. -/
theorem getRandomProxy_no_trailing_newline_witness :
    getRandomProxy "proxies.txt"
      (fun _ => .ok (String.mk (joinLines (["1.2.3.4:1080", "5.6.7.8:1080"].map String.data))))
      7 ∈ ["1.2.3.4:1080", "5.6.7.8:1080"] :=
  (getRandomProxy_no_trailing_newline "proxies.txt" "1.2.3.4:1080" ["5.6.7.8:1080"] 7
    (by decide) (by decide)).1

end InstaFix
